import Mathlib

/-!
Verification development for the presentation-builder pipeline.

The development gives a shallow embedding of the pipeline core:

* the workspace manager (`create_project_folder` in `tools_ppt.py`),
* the static code validator (`validate_ppt_code`),
* the sandbox executor's save-path rewrite, template staging and
  result classification (`execute_ppt_code`),
* the final result analysis of `generate_powerpoint_presentation`
  (`ppt_generator_agent.py`),
* the template factory (`create_template` in `ppt_templates.py`),
* and the stage-orchestrator state machine described by the design
  document (the repository realises it through free-form prompt text,
  so the machine itself is modelled from the specification).

Pure Python functions become Lean functions over `String` / `List Char`;
Python's `needle in haystack` becomes an executable substring scan; the
save-call regex substitution becomes an explicit left-to-right scanner.
-/

namespace PPT

/-- Python substring match anchored at the head of `l`: the token equals
the first `tok.length` characters of `l`. -/
def startsTok (tok l : List Char) : Bool :=
  List.take tok.length l == tok

/-- Python's `needle in haystack` containment over character lists. -/
def hasTok (tok : List Char) : List Char → Bool
  | [] => List.isEmpty tok
  | c :: cs => startsTok tok (c :: cs) || hasTok tok cs

/-- Python's `needle in haystack` on strings. -/
def pyIn (needle haystack : String) : Bool :=
  hasTok needle.toList haystack.toList

/-- Scan for the first close paren, returning the characters strictly
before it and the remainder strictly after it.  This models the greedy
match of `[^)]*` followed by a literal close paren in the save-call
regex of `execute_ppt_code`. -/
def findCloseParen : List Char → Option (List Char × List Char)
  | [] => none
  | c :: cs =>
    if c = ')' then some ([], cs)
    else
      match findCloseParen cs with
      | some (b, a) => some (c :: b, a)
      | none => none

theorem findCloseParen_eq_some {m b a : List Char}
    (h : findCloseParen m = some (b, a)) :
    m = b ++ ')' :: a ∧ (')' : Char) ∉ b := by
  induction m generalizing b a with
  | nil => simp [findCloseParen] at h
  | cons c cs ih =>
    by_cases hc : c = ')'
    · subst hc
      simp [findCloseParen] at h
      obtain ⟨hb, ha⟩ := h
      subst hb; subst ha
      exact ⟨rfl, by simp⟩
    · rw [findCloseParen, if_neg hc] at h
      cases hcs : findCloseParen cs with
      | none => rw [hcs] at h; exact absurd h (by simp)
      | some p =>
        obtain ⟨b1, a1⟩ := p
        rw [hcs] at h
        simp at h
        obtain ⟨hb, ha⟩ := h
        obtain ⟨heq, hmem⟩ := ih hcs
        subst hb; subst ha
        refine ⟨by simp [heq], ?_⟩
        simp only [List.mem_cons, not_or]
        exact ⟨fun he => hc he.symm, hmem⟩

theorem findCloseParen_append (b a : List Char) (hb : (')' : Char) ∉ b) :
    findCloseParen (b ++ ')' :: a) = some (b, a) := by
  induction b with
  | nil => simp [findCloseParen]
  | cons c cs ih =>
    have hc : c ≠ ')' := by
      intro h; exact hb (by simp [h])
    have hcs : (')' : Char) ∉ cs := by
      intro h; exact hb (List.mem_cons_of_mem _ h)
    simp [findCloseParen, hc, ih hcs]

theorem findCloseParen_eq_none {m : List Char} :
    findCloseParen m = none ↔ (')' : Char) ∉ m := by
  induction m with
  | nil => simp [findCloseParen]
  | cons c cs ih =>
    by_cases hc : c = ')'
    · subst hc
      simp [findCloseParen]
    · rw [findCloseParen, if_neg hc]
      constructor
      · intro h
        cases hcs : findCloseParen cs with
        | none =>
          simp only [List.mem_cons, not_or]
          exact ⟨fun he => hc he.symm, ih.mp hcs⟩
        | some p =>
          obtain ⟨b1, a1⟩ := p
          rw [hcs] at h
          exact absurd h (by simp)
      · intro h
        have h1 : (')' : Char) ∉ cs := fun hm => h (List.mem_cons_of_mem _ hm)
        rw [ih.mpr h1]

/-- The literal `.save(` scanned for both by the executor's regex and by
the validator's and executor's `in`-checks. -/
def saveTok : List Char := ['.', 's', 'a', 'v', 'e', '(']

/-- One left-to-right pass of `re.sub` with pattern
"dot save open-paren, non-close-paren characters, close paren" and the
literal replacement `repl`, as performed by `execute_ppt_code` on the
candidate source (line 337 of `tools_ppt.py`). -/
def subSave (repl : List Char) : List Char → List Char
  | [] => []
  | c :: cs =>
    if startsTok saveTok (c :: cs) then
      match hfc : findCloseParen (List.drop 5 cs) with
      | some (_, a) => repl ++ subSave repl a
      | none => c :: subSave repl cs
    else c :: subSave repl cs
termination_by l => l.length
decreasing_by
  · have h2 := findCloseParen_eq_some hfc
    have hlen : (List.drop 5 cs).length = _ := congrArg List.length h2.1
    simp [List.length_append] at hlen
    simp only [List.length_cons]
    omega
  · simp only [List.length_cons]; omega
  · simp only [List.length_cons]; omega

/-- The extraction counterpart of `subSave`: the list of argument texts of
the save calls that the regex would match, in scan order. -/
def saveTargets : List Char → List (List Char)
  | [] => []
  | c :: cs =>
    if startsTok saveTok (c :: cs) then
      match hfc : findCloseParen (List.drop 5 cs) with
      | some (b, a) => b :: saveTargets a
      | none => saveTargets cs
    else saveTargets cs
termination_by l => l.length
decreasing_by
  · have h2 := findCloseParen_eq_some hfc
    have hlen : (List.drop 5 cs).length = _ := congrArg List.length h2.1
    simp [List.length_append] at hlen
    simp only [List.length_cons]
    omega
  · simp only [List.length_cons]; omega
  · simp only [List.length_cons]; omega

theorem subSave_nil (repl : List Char) : subSave repl [] = [] := by
  rw [subSave]

theorem subSave_cons_pos {c : Char} {cs b a : List Char} (repl : List Char)
    (hs : startsTok saveTok (c :: cs) = true)
    (hf : findCloseParen (List.drop 5 cs) = some (b, a)) :
    subSave repl (c :: cs) = repl ++ subSave repl a := by
  rw [subSave]
  simp only [hs, if_true]
  split <;> simp_all

theorem subSave_cons_noclose {c : Char} {cs : List Char} (repl : List Char)
    (hs : startsTok saveTok (c :: cs) = true)
    (hf : findCloseParen (List.drop 5 cs) = none) :
    subSave repl (c :: cs) = c :: subSave repl cs := by
  rw [subSave]
  simp only [hs, if_true]
  split <;> simp_all

theorem subSave_cons_neg {c : Char} {cs : List Char} (repl : List Char)
    (hs : startsTok saveTok (c :: cs) = false) :
    subSave repl (c :: cs) = c :: subSave repl cs := by
  rw [subSave]
  simp [hs]

theorem saveTargets_nil : saveTargets [] = [] := by
  rw [saveTargets]

theorem saveTargets_cons_pos {c : Char} {cs b a : List Char}
    (hs : startsTok saveTok (c :: cs) = true)
    (hf : findCloseParen (List.drop 5 cs) = some (b, a)) :
    saveTargets (c :: cs) = b :: saveTargets a := by
  rw [saveTargets]
  simp only [hs, if_true]
  split <;> simp_all

theorem saveTargets_cons_noclose {c : Char} {cs : List Char}
    (hs : startsTok saveTok (c :: cs) = true)
    (hf : findCloseParen (List.drop 5 cs) = none) :
    saveTargets (c :: cs) = saveTargets cs := by
  rw [saveTargets]
  simp only [hs, if_true]
  split <;> simp_all

theorem saveTargets_cons_neg {c : Char} {cs : List Char}
    (hs : startsTok saveTok (c :: cs) = false) :
    saveTargets (c :: cs) = saveTargets cs := by
  rw [saveTargets]
  simp [hs]

theorem saveTok_length : saveTok.length = 6 := rfl

theorem startsTok_save_iff {l : List Char} :
    startsTok saveTok l = true ↔ List.take 6 l = saveTok := by
  simp [startsTok, saveTok_length]

theorem startsTok_save_eq_of_take {l₁ l₂ : List Char}
    (h : List.take 6 l₁ = List.take 6 l₂) :
    startsTok saveTok l₁ = startsTok saveTok l₂ := by
  simp only [startsTok, saveTok_length, h]

theorem take_of_startsTok_save {l : List Char} (hs : startsTok saveTok l = true)
    {n : Nat} (hn : n ≤ 6) : List.take n l = List.take n saveTok := by
  have h6 : List.take 6 l = saveTok := startsTok_save_iff.mp hs
  have : List.take n l = List.take n (List.take 6 l) := by
    rw [List.take_take]
    congr 1
    exact (inf_eq_left.mpr hn).symm
  rw [this, h6]

theorem take_repl_append {repl inner : List Char}
    (hr : repl = saveTok ++ (inner ++ [')'])) (X : List Char)
    {n : Nat} (hn : n ≤ 6) :
    List.take n (repl ++ X) = List.take n saveTok := by
  subst hr
  rw [List.append_assoc, List.take_append_eq_append_take]
  have : n - saveTok.length = 0 := by rw [saveTok_length]; omega
  rw [this]
  simp

theorem startsTok_save_repl_append {repl inner : List Char}
    (hr : repl = saveTok ++ (inner ++ [')'])) (X : List Char) :
    startsTok saveTok (repl ++ X) = true := by
  rw [startsTok_save_iff, take_repl_append hr X (le_refl 6)]
  simp [saveTok_length]

/-- The substitution never changes the first six characters of the text:
matched regions begin with the save token, which the replacement also
begins with. -/
theorem take_subSave {repl inner : List Char}
    (hr : repl = saveTok ++ (inner ++ [')'])) :
    ∀ l : List Char, ∀ n, n ≤ 6 →
      List.take n (subSave repl l) = List.take n l := by
  have key : ∀ N, ∀ l : List Char, l.length ≤ N → ∀ n, n ≤ 6 →
      List.take n (subSave repl l) = List.take n l := by
    intro N
    induction N with
    | zero =>
      intro l hl n _
      have : l = [] := List.length_eq_zero.mp (Nat.le_zero.mp hl)
      subst this
      rw [subSave_nil]
    | succ N ih =>
      intro l hl n hn
      match l with
      | [] => rw [subSave_nil]
      | c :: cs =>
        have hcs : cs.length ≤ N := by
          simp only [List.length_cons] at hl; omega
        by_cases hs : startsTok saveTok (c :: cs) = true
        · cases hfc : findCloseParen (List.drop 5 cs) with
          | some p =>
            obtain ⟨b, a⟩ := p
            rw [subSave_cons_pos repl hs hfc, take_repl_append hr _ hn,
              take_of_startsTok_save hs hn]
          | none =>
            rw [subSave_cons_noclose repl hs hfc]
            cases n with
            | zero => simp
            | succ m =>
              rw [List.take_succ_cons, List.take_succ_cons,
                ih cs hcs m (by omega)]
        · rw [subSave_cons_neg repl (Bool.not_eq_true _ ▸ hs)]
          cases n with
          | zero => simp
          | succ m =>
            rw [List.take_succ_cons, List.take_succ_cons,
              ih cs hcs m (by omega)]
  intro l
  exact key l.length l (le_refl _)

theorem startsTok_cons_subSave {repl inner : List Char}
    (hr : repl = saveTok ++ (inner ++ [')'])) (c : Char) (cs : List Char) :
    startsTok saveTok (c :: subSave repl cs) = startsTok saveTok (c :: cs) := by
  apply startsTok_save_eq_of_take
  rw [List.take_succ_cons, List.take_succ_cons, take_subSave hr cs 5 (by omega)]

/-- If no close paren occurs at offset `k ≤ 6` or later, the regex never
matches and both the substitution and the extraction are trivial. -/
theorem subSave_of_noParen (repl : List Char) :
    ∀ N, ∀ l : List Char, l.length ≤ N → ∀ k, k ≤ 6 →
      (')' : Char) ∉ List.drop k l →
      subSave repl l = l ∧ saveTargets l = [] := by
  intro N
  induction N with
  | zero =>
    intro l hl k _ _
    have : l = [] := List.length_eq_zero.mp (Nat.le_zero.mp hl)
    subst this
    exact ⟨subSave_nil repl, saveTargets_nil⟩
  | succ N ih =>
    intro l hl k hk hp
    match l with
    | [] => exact ⟨subSave_nil repl, saveTargets_nil⟩
    | c :: cs =>
      have hcs : cs.length ≤ N := by
        simp only [List.length_cons] at hl; omega
      have hp' : (')' : Char) ∉ List.drop (k - 1) cs := by
        cases k with
        | zero =>
          intro hmem
          exact hp (List.mem_cons_of_mem c (List.drop_subset 0 cs hmem))
        | succ j =>
          rw [List.drop_succ_cons] at hp
          simpa using hp
      have hsub : (')' : Char) ∉ List.drop 5 cs := by
        intro hmem
        apply hp'
        have heq : List.drop (5 - (k - 1)) (List.drop (k - 1) cs) =
            List.drop 5 cs := by
          rw [List.drop_drop]
          congr 1
          omega
        exact List.drop_subset _ _ (heq ▸ hmem)
      have hfc : findCloseParen (List.drop 5 cs) = none :=
        findCloseParen_eq_none.mpr hsub
      have hrest := ih cs hcs (k - 1) (by omega) hp'
      by_cases hs : startsTok saveTok (c :: cs) = true
      · rw [subSave_cons_noclose repl hs hfc, saveTargets_cons_noclose hs hfc,
          hrest.1]
        exact ⟨rfl, hrest.2⟩
      · rw [subSave_cons_neg repl (Bool.not_eq_true _ ▸ hs),
          saveTargets_cons_neg (Bool.not_eq_true _ ▸ hs), hrest.1]
        exact ⟨rfl, hrest.2⟩

theorem subSave_repl_append {repl inner : List Char}
    (hr : repl = saveTok ++ (inner ++ [')'])) (hi : (')' : Char) ∉ inner)
    (X : List Char) :
    subSave repl (repl ++ X) = repl ++ subSave repl X ∧
      saveTargets (repl ++ X) = inner :: saveTargets X := by
  have hdecomp : repl ++ X =
      '.' :: 's' :: 'a' :: 'v' :: 'e' :: '(' :: (inner ++ ')' :: X) := by
    subst hr
    simp [saveTok]
  have hs : startsTok saveTok
      ('.' :: 's' :: 'a' :: 'v' :: 'e' :: '(' :: (inner ++ ')' :: X)) = true := by
    rw [startsTok_save_iff]
    rfl
  have hdrop : List.drop 5 ('s' :: 'a' :: 'v' :: 'e' :: '(' :: (inner ++ ')' :: X)) =
      inner ++ ')' :: X := rfl
  have hfc : findCloseParen
      (List.drop 5 ('s' :: 'a' :: 'v' :: 'e' :: '(' :: (inner ++ ')' :: X))) =
      some (inner, X) := by
    rw [hdrop]
    exact findCloseParen_append inner X hi
  constructor
  · rw [hdecomp, subSave_cons_pos repl hs hfc]
  · rw [hdecomp, saveTargets_cons_pos hs hfc]

/-- Applying the substitution to its own output changes nothing, provided
the replacement's argument holds no close paren. -/
theorem subSave_idem {repl inner : List Char}
    (hr : repl = saveTok ++ (inner ++ [')'])) (hi : (')' : Char) ∉ inner) :
    ∀ l : List Char, subSave repl (subSave repl l) = subSave repl l := by
  have key : ∀ N, ∀ l : List Char, l.length ≤ N →
      subSave repl (subSave repl l) = subSave repl l := by
    intro N
    induction N with
    | zero =>
      intro l hl
      have : l = [] := List.length_eq_zero.mp (Nat.le_zero.mp hl)
      subst this
      rw [subSave_nil, subSave_nil]
    | succ N ih =>
      intro l hl
      match l with
      | [] => rw [subSave_nil, subSave_nil]
      | c :: cs =>
        have hcs : cs.length ≤ N := by
          simp only [List.length_cons] at hl; omega
        by_cases hs : startsTok saveTok (c :: cs) = true
        · cases hfc : findCloseParen (List.drop 5 cs) with
          | some p =>
            obtain ⟨b, a⟩ := p
            have ha : a.length ≤ N := by
              have h2 := findCloseParen_eq_some hfc
              have hlen := congrArg List.length h2.1
              rw [List.length_drop] at hlen
              simp [List.length_append] at hlen
              omega
            rw [subSave_cons_pos repl hs hfc,
              (subSave_repl_append hr hi _).1, ih a ha]
          | none =>
            have hsub : (')' : Char) ∉ List.drop 5 cs :=
              findCloseParen_eq_none.mp hfc
            have hid : subSave repl cs = cs :=
              (subSave_of_noParen repl cs.length cs (le_refl _) 5 (by omega) hsub).1
            have h1 : subSave repl (c :: cs) = c :: cs := by
              rw [subSave_cons_noclose repl hs hfc, hid]
            rw [h1, h1]
        · have hs' : startsTok saveTok (c :: cs) = false :=
            Bool.not_eq_true _ ▸ hs
          rw [subSave_cons_neg repl hs']
          have hs2 : startsTok saveTok (c :: subSave repl cs) = false := by
            rw [startsTok_cons_subSave hr]
            exact hs'
          rw [subSave_cons_neg repl hs2, ih cs hcs]
  intro l
  exact key l.length l (le_refl _)

/-- Every save-call argument the regex can still find in the rewritten
text equals the replacement's own argument. -/
theorem saveTargets_subSave {repl inner : List Char}
    (hr : repl = saveTok ++ (inner ++ [')'])) (hi : (')' : Char) ∉ inner) :
    ∀ l : List Char, ∀ t ∈ saveTargets (subSave repl l), t = inner := by
  have key : ∀ N, ∀ l : List Char, l.length ≤ N →
      ∀ t ∈ saveTargets (subSave repl l), t = inner := by
    intro N
    induction N with
    | zero =>
      intro l hl t ht
      have : l = [] := List.length_eq_zero.mp (Nat.le_zero.mp hl)
      subst this
      rw [subSave_nil, saveTargets_nil] at ht
      simp at ht
    | succ N ih =>
      intro l hl t ht
      match l with
      | [] =>
        rw [subSave_nil, saveTargets_nil] at ht
        simp at ht
      | c :: cs =>
        have hcs : cs.length ≤ N := by
          simp only [List.length_cons] at hl; omega
        by_cases hs : startsTok saveTok (c :: cs) = true
        · cases hfc : findCloseParen (List.drop 5 cs) with
          | some p =>
            obtain ⟨b, a⟩ := p
            have ha : a.length ≤ N := by
              have h2 := findCloseParen_eq_some hfc
              have hlen := congrArg List.length h2.1
              rw [List.length_drop] at hlen
              simp [List.length_append] at hlen
              omega
            rw [subSave_cons_pos repl hs hfc,
              (subSave_repl_append hr hi _).2] at ht
            rcases List.mem_cons.mp ht with h | h
            · exact h
            · exact ih a ha t h
          | none =>
            have hsub : (')' : Char) ∉ List.drop 5 cs :=
              findCloseParen_eq_none.mp hfc
            have hall := subSave_of_noParen repl cs.length cs (le_refl _) 5
              (by omega) hsub
            have h1 : subSave repl (c :: cs) = c :: cs := by
              rw [subSave_cons_noclose repl hs hfc, hall.1]
            rw [h1, saveTargets_cons_noclose hs hfc, hall.2] at ht
            simp at ht
        · have hs' : startsTok saveTok (c :: cs) = false :=
            Bool.not_eq_true _ ▸ hs
          rw [subSave_cons_neg repl hs'] at ht
          have hs2 : startsTok saveTok (c :: subSave repl cs) = false := by
            rw [startsTok_cons_subSave hr]
            exact hs'
          rw [saveTargets_cons_neg hs2] at ht
          exact ih cs hcs t ht
  intro l
  exact key l.length l (le_refl _)

theorem hasTok_cons {tok : List Char} {c : Char} {cs : List Char} :
    hasTok tok (c :: cs) = (startsTok tok (c :: cs) || hasTok tok cs) := rfl

theorem hasTok_append_of_startsTok {tok Y : List Char}
    (hY : startsTok tok Y = true) :
    ∀ A : List Char, hasTok tok (A ++ Y) = true := by
  intro A
  induction A with
  | nil =>
    simp only [List.nil_append]
    cases Y with
    | nil =>
      simp only [startsTok, List.take_nil] at hY
      have : tok = [] := by
        have h1 : ([] : List Char) = tok := beq_iff_eq.mp hY
        exact h1.symm
      subst this
      rfl
    | cons c cs =>
      rw [hasTok_cons, hY]
      rfl
  | cons c A' ihA =>
    rw [List.cons_append, hasTok_cons, ihA]
    simp

/-- If the text holds no occurrence of the save token and the tail cannot
complete one across the boundary, the scanners ignore the prefix. -/
theorem subSave_append_no_cross (repl : List Char) {Y : List Char}
    (hY : ∀ n : Nat, 1 ≤ n → n < 6 → Y[0]? ≠ saveTok[n]?) :
    ∀ A : List Char, hasTok saveTok A = false →
      subSave repl (A ++ Y) = A ++ subSave repl Y ∧
        saveTargets (A ++ Y) = saveTargets Y := by
  intro A
  induction A with
  | nil =>
    intro _
    simp
  | cons c A' ihA =>
    intro hA
    rw [hasTok_cons, Bool.or_eq_false_iff] at hA
    obtain ⟨hsc, hA'⟩ := hA
    have hs : startsTok saveTok ((c :: A') ++ Y) = false := by
      by_cases hlen : 6 ≤ (c :: A').length
      · have htake : List.take 6 ((c :: A') ++ Y) = List.take 6 (c :: A') := by
          rw [List.take_append_eq_append_take]
          have h0 : 6 - (c :: A').length = 0 := by omega
          rw [h0]
          simp
        rw [startsTok_save_eq_of_take htake]
        exact hsc
      · push_neg at hlen
        by_contra hcon
        rw [Bool.not_eq_false] at hcon
        have htk : List.take 6 ((c :: A') ++ Y) = saveTok :=
          startsTok_save_iff.mp hcon
        have hn1 : 1 ≤ (c :: A').length := by
          simp [List.length_cons]
        have h0 : (List.take 6 ((c :: A') ++ Y))[(c :: A').length]? =
            saveTok[(c :: A').length]? := by
          rw [htk]
        rw [List.getElem?_take, if_pos hlen,
          List.getElem?_append_right (le_refl _), Nat.sub_self] at h0
        exact hY (c :: A').length hn1 hlen h0
    have hs' : startsTok saveTok (c :: (A' ++ Y)) = false := hs
    have hrest := ihA hA'
    constructor
    · rw [List.cons_append, subSave_cons_neg repl hs', hrest.1, List.cons_append]
    · rw [List.cons_append, saveTargets_cons_neg hs', hrest.2]

/-- The rewritten text is either unchanged or holds a literal copy of the
replacement. -/
theorem subSave_shape (repl : List Char) :
    ∀ N, ∀ l : List Char, l.length ≤ N →
      subSave repl l = l ∨
        ∃ U V : List Char, subSave repl l = U ++ (repl ++ V) := by
  intro N
  induction N with
  | zero =>
    intro l hl
    have : l = [] := List.length_eq_zero.mp (Nat.le_zero.mp hl)
    subst this
    exact Or.inl (subSave_nil repl)
  | succ N ih =>
    intro l hl
    match l with
    | [] => exact Or.inl (subSave_nil repl)
    | c :: cs =>
      have hcs : cs.length ≤ N := by
        simp only [List.length_cons] at hl; omega
      by_cases hs : startsTok saveTok (c :: cs) = true
      · cases hfc : findCloseParen (List.drop 5 cs) with
        | some p =>
          obtain ⟨b, a⟩ := p
          refine Or.inr ⟨[], subSave repl a, ?_⟩
          rw [subSave_cons_pos repl hs hfc]
          simp
        | none =>
          have hsub : (')' : Char) ∉ List.drop 5 cs :=
            findCloseParen_eq_none.mp hfc
          have hid : subSave repl cs = cs :=
            (subSave_of_noParen repl cs.length cs (le_refl _) 5 (by omega) hsub).1
          refine Or.inl ?_
          rw [subSave_cons_noclose repl hs hfc, hid]
      · have hs' : startsTok saveTok (c :: cs) = false :=
          Bool.not_eq_true _ ▸ hs
        rcases ih cs hcs with h | ⟨U, V, h⟩
        · refine Or.inl ?_
          rw [subSave_cons_neg repl hs', h]
        · refine Or.inr ⟨c :: U, V, ?_⟩
          rw [subSave_cons_neg repl hs', h]
          rfl

/-- The rewritten text still holds the save token whenever the source did. -/
theorem hasTok_subSave {repl inner : List Char}
    (hr : repl = saveTok ++ (inner ++ [')'])) (l : List Char)
    (hl : hasTok saveTok l = true) :
    hasTok saveTok (subSave repl l) = true := by
  rcases subSave_shape repl l.length l (le_refl _) with h | ⟨U, V, h⟩
  · rw [h]
    exact hl
  · rw [h]
    exact hasTok_append_of_startsTok (startsTok_save_repl_append hr V) U

/-! ## Workspace creation: `create_project_folder`, `tools_ppt.py` lines 52-71 -/

structure WorkspaceLayout where
  unique_id : String
  root : String
  subdirs : List String
deriving DecidableEq

/-- `create_project_folder`: a root folder under `generated_presentations`
named from the topic, a timestamp and a unique id, holding the four fixed
subdirectories created on lines 62-65. -/
def create_project_folder (cwd topic timestamp uid : String) : WorkspaceLayout :=
  { unique_id := uid
    root := cwd ++ "/generated_presentations/" ++
      ("ppt_presentation_" ++ topic ++ "_" ++ timestamp ++ "_" ++ uid)
    subdirs := ["code", "presentations", "assets", "logs"] }

/-! ## The executor's save-path rewrite: `execute_ppt_code` lines 318-340 -/

/-- Argument text of the replacement save call: a Python raw-string
literal holding the output path. -/
def replInner (path : List Char) : List Char := 'r' :: '"' :: (path ++ ['"'])

theorem notMem_replInner {path : List Char} (hp : (')' : Char) ∉ path) :
    (')' : Char) ∉ replInner path := by
  intro h
  simp only [replInner, List.mem_cons, List.mem_append] at h
  rcases h with h | h | h | h
  · exact absurd h (by decide)
  · exact absurd h (by decide)
  · exact hp h
  · exact absurd h (by decide)

/-- The full replacement save call inserted by the substitution. -/
def replChars (path : List Char) : List Char :=
  saveTok ++ (replInner path ++ [')'])

/-- Python's `str.endswith`, over character lists. -/
def pyEndsWith (s suffix : String) : Bool :=
  startsTok suffix.toList.reverse s.toList.reverse

/-- `filename += '.pptx'` unless already present (lines 324-325). -/
def ensurePptx (filename : String) : String :=
  if pyEndsWith filename ".pptx" then filename else filename ++ ".pptx"

/-- The backslash-to-slash normalisation of line 331. -/
def slashNorm (s : String) : String :=
  String.mk (s.toList.map (fun c => if c = '\\' then '/' else c))

/-- The rewritten save destination
`project_folder/presentations/<filename>` built on lines 320-331
(`pathlib` joins modelled with POSIX separators). -/
def outputPathStr (projectFolder filename : String) : String :=
  slashNorm (projectFolder ++ "/presentations/" ++ ensurePptx filename)

/-- Text preceding the save call in the appended block of line 340. -/
def appendMid : String := "\n\n# Save the presentation\nprs"

/-- The replacement save call as a string. -/
def saveReplStr (path : String) : String := ".save(r\"" ++ path ++ "\")"

/-- Save-path rewrite of `execute_ppt_code` (lines 333-340): when the
source holds a save call, every match of the save-call pattern is
replaced by one targeting `path`; otherwise a save call targeting `path`
is appended. -/
def fixSaveCode (path code : String) : String :=
  if pyIn ".save(" code then
    String.mk (subSave (replChars path.toList) code.toList)
  else
    code ++ appendMid ++ saveReplStr path

/-! ## Execution classification: `execute_ppt_code` lines 383-429 -/

/-- Outcome of the spawned child process together with the artifact
check of line 388. -/
structure RunOutcome where
  timedOut : Bool
  returncode : Int
  stdout : String
  stderr : String
  artifactExists : Bool
deriving DecidableEq

/-- The record returned by `execute_ppt_code` (its `output` and `error`
keys are absent from some branches, hence optional). -/
structure ExecResult where
  status : String
  ppt_path : String
  output : Option String
  error : Option String
  message : String
deriving DecidableEq

/-- Classification step of `execute_ppt_code` over the child-process
outcome (lines 383-422): deadline expiry, exit 0 with the artifact
present, exit 0 without it, and non-zero exit. -/
def classifyExecution (outputPath : String) (o : RunOutcome) : ExecResult :=
  if o.timedOut then
    { status := "error", ppt_path := "", output := none, error := none,
      message := "PowerPoint code execution timed out (>2 minutes)" }
  else if o.returncode = 0 then
    if o.artifactExists then
      { status := "success", ppt_path := outputPath, output := some o.stdout,
        error := none,
        message := "PowerPoint presentation generated successfully" }
    else
      { status := "warning", ppt_path := "", output := some o.stdout,
        error := none,
        message := "Code execution completed but no presentation file found" }
  else
    { status := "error", ppt_path := "", output := some o.stdout,
      error := some (if o.stderr = "" then o.stdout else o.stderr),
      message := "PowerPoint code execution failed: " ++
        (if o.stderr = "" then o.stdout else o.stderr) }

/-- Pre-run preparation of `execute_ppt_code` (lines 318-374): rewrite the
save destination, then stage the design-system module when the source
imports it.  Line 361 calls `.exists()` on `template_source`, a plain
`str` with no such method, so reaching the second staging block raises
`AttributeError`, which the handler of line 423 turns into an error
record; when the module file is absent the first block returns the
not-found error of line 352. -/
def execPrepare (templateExists : Bool) (path code : String) :
    Except String String :=
  let code1 := fixSaveCode path code
  if pyIn "from ppt_templates import" code1 then
    if templateExists then
      Except.error
        "Error executing PowerPoint code: 'str' object has no attribute 'exists'"
    else
      Except.error
        "Template source file not found at app\\ppt_gen\\ppt_templates.py"
  else
    Except.ok code1

/-! ## The validator: `validate_ppt_code`, `tools_ppt.py` lines 148-273 -/

/-- A candidate Python source: its text together with the outcome of
Python's `ast.parse` on it (parse success, and the reported line and
message on failure), abstracted as input data since the embedding does
not model Python's grammar. -/
structure PySource where
  text : String
  parse_ok : Bool
  errLine : Nat
  errMsg : String
deriving DecidableEq

/-- The validator's result dictionary.  Keys present in only one of the
two return branches are optional. -/
structure VResult where
  parse_ok : Bool
  imports_template : Option Bool
  uses_template_system : Option Bool
  creates_presentation : Bool
  saves_presentation : Bool
  has_slides : Bool
  template_theme_selected : Option Bool
  uses_raw_pptx : Option Bool
  imports_pptx : Option Bool
  errors : List String
  warnings : List String
deriving DecidableEq

def themeNames : List String := ["business", "tech", "creative", "corporate"]

def templateMethods : List String :=
  ["create_title_slide", "create_content_slide", "create_section_slide",
   "create_comparison_slide", "create_conclusion_slide",
   "create_thank_you_slide", "create_image_slide",
   "create_image_content_slide", "create_image_comparison_slide"]

def problematicPatterns : List String :=
  ["Visual note:", "Image suggestion:", "supporting image",
   "image located at", "assets/image_", "project_images/", ".jpg", ".png"]

def importErrMsg : String :=
  "CRITICAL: Missing template import. Must include: from ppt_templates import create_template"

def useErrMsg : String :=
  "CRITICAL: Must use template system. Include: ppt = create_template('theme_name')"

def rawErrMsg : String :=
  "CRITICAL: Raw python-pptx usage detected. Must use template system only"

def themeWarnMsg : String :=
  "Template theme not clearly specified. Use: business, tech, creative, or corporate"

def saveWarnMsg : String := "Presentation save method not found"

def slidesWarnMsg : String := "No template slide creation methods found"

def leakWarnMsg (p : String) : String :=
  "WARNING: Found '" ++ p ++
    "' in code - images should use image slide methods, not text references"

/-- `validate_ppt_code`: parse check, then the substring checks of lines
177-250 collecting blocking errors and warnings in source order. -/
def validate_ppt_code (src : PySource) : VResult :=
  if src.parse_ok then
    let code := src.text
    let imports_template := pyIn "from ppt_templates import create_template" code
    let uses_template_system := pyIn "create_template(" code
    let template_theme_selected :=
      themeNames.any (fun t => pyIn ("create_template(\"" ++ t ++ "\")") code)
    let uses_raw_pptx :=
      pyIn "Presentation()" code || pyIn "pptx.Presentation()" code ||
        pyIn "from pptx import Presentation" code || pyIn "import pptx" code
    let saves_presentation := pyIn ".save(" code
    let has_slides := templateMethods.any (fun m => pyIn m code)
    let leakWarnings := problematicPatterns.filterMap (fun p =>
      if pyIn p code && pyIn "create_content_slide" code then
        some (leakWarnMsg p)
      else none)
    { parse_ok := true
      imports_template := some imports_template
      uses_template_system := some uses_template_system
      creates_presentation := uses_template_system
      saves_presentation := saves_presentation
      has_slides := has_slides
      template_theme_selected := some template_theme_selected
      uses_raw_pptx := some uses_raw_pptx
      imports_pptx := none
      errors :=
        (if imports_template then [] else [importErrMsg]) ++
        (if uses_template_system then [] else [useErrMsg]) ++
        (if uses_raw_pptx then [rawErrMsg] else [])
      warnings :=
        leakWarnings ++
        (if template_theme_selected then [] else [themeWarnMsg]) ++
        (if saves_presentation then [] else [saveWarnMsg]) ++
        (if has_slides then [] else [slidesWarnMsg]) }
  else
    { parse_ok := false
      imports_template := none
      uses_template_system := none
      creates_presentation := false
      saves_presentation := false
      has_slides := false
      template_theme_selected := none
      uses_raw_pptx := none
      imports_pptx := some false
      errors :=
        ["Syntax error at line " ++ toString src.errLine ++ ": " ++ src.errMsg]
      warnings := [] }

/-- Overall pass in the sense of the design document: no blocking
findings. -/
def overallPass (r : VResult) : Bool := r.errors.isEmpty

/-! ## Final result analysis: `ppt_generator_agent.py` lines 186-225 -/

def successIndicators : List String :=
  ["PowerPoint presentation generated successfully", "ppt_path",
   "status.*success", "presentation.*created"]

def lowerStr (s : String) : String := String.mk (s.toList.map Char.toLower)

/-- Success detection over the executor agent's output (lines 204-215):
any indicator occurring case-insensitively. -/
def isSuccessful (executorOutput : String) : Bool :=
  successIndicators.any (fun ind => pyIn (lowerStr ind) (lowerStr executorOutput))

/-- Email-sent detection over the email agent's output (lines 219-222). -/
def emailSent (emailOutput : String) : Bool :=
  (!(emailOutput == "")) &&
    (pyIn "Email sent successfully" emailOutput || pyIn "✅" emailOutput)

structure FinalResult where
  success : Bool
  email_sent : Bool
deriving DecidableEq

/-- The success and delivery fields of the result record. -/
def analyzeResult (executorOutput emailOutput : String) : FinalResult :=
  { success := isSuccessful executorOutput
    email_sent := emailSent emailOutput }

/-! ## The template factory: `create_template`, `ppt_templates.py` 668-686 -/

inductive TemplateClass
  | business | tech | creative | corporate
deriving DecidableEq

/-- Theme key carried by each template subclass instance. -/
def templateThemeName : TemplateClass → String
  | .business => "business_blue"
  | .tech => "tech_green"
  | .creative => "modern_purple"
  | .corporate => "corporate_red"

def templatesDict : List (String × TemplateClass) :=
  [("business", .business), ("tech", .tech),
   ("creative", .creative), ("corporate", .corporate)]

/-- `create_template`: dictionary lookup with `BusinessTemplate` as the
default for unknown keys (`templates.get(template_type, BusinessTemplate)`). -/
def create_template (template_type : String) : TemplateClass :=
  (templatesDict.lookup template_type).getD TemplateClass.business

/-! ## The stage orchestrator

Modelled from the spec: the repository drives its stages through a
free-form LLM supervisor prompt (`supervisor_prompt` in `prompts.py`)
and only declares `current_iteration` / `max_iterations` in
`PPTGeneratorState`; the bounded-retry state machine itself appears only
in section 4.4 of the design document, so it is embedded from the
specification text. -/

/-- Modelled from the spec: the orchestrator's stages. -/
inductive Stage
  | planning | generating | validating | executing | delivering | done | failed
deriving DecidableEq

/-- Modelled from the spec: orchestrator state, the current stage and the
generation-attempt counter `iteration_count`. -/
structure OrchState where
  stage : Stage
  iteration_count : Nat
deriving DecidableEq

/-- Modelled from the spec: per-round outcomes supplied by the external
collaborators. -/
structure StageRound where
  validationPass : Bool
  execSuccess : Bool
deriving DecidableEq

/-- Modelled from the spec (section 4.4): one transition of the
orchestrator.  A generation attempt advances `iteration_count`;
validation or execution failure loops back to generation unless the
counter has reached `max_iterations`, which yields FAILED; execution
success moves to delivery when a recipient is present, else DONE;
delivery always reaches DONE. -/
def orchStep (maxIter : Nat) (recipient : Bool) (r : StageRound) :
    OrchState → OrchState
  | ⟨.planning, n⟩ => ⟨.generating, n⟩
  | ⟨.generating, n⟩ => ⟨.validating, n + 1⟩
  | ⟨.validating, n⟩ =>
    if r.validationPass then ⟨.executing, n⟩
    else if n = maxIter then ⟨.failed, n⟩
    else ⟨.generating, n⟩
  | ⟨.executing, n⟩ =>
    if r.execSuccess then
      (if recipient then ⟨.delivering, n⟩ else ⟨.done, n⟩)
    else if n = maxIter then ⟨.failed, n⟩
    else ⟨.generating, n⟩
  | ⟨.delivering, n⟩ => ⟨.done, n⟩
  | ⟨.done, n⟩ => ⟨.done, n⟩
  | ⟨.failed, n⟩ => ⟨.failed, n⟩

/-- Modelled from the spec: initial orchestrator state. -/
def orchInit : OrchState := ⟨.planning, 0⟩

/-- Modelled from the spec: a run of the orchestrator over a sequence of
round outcomes. -/
def orchRun (maxIter : Nat) (recipient : Bool) (rounds : List StageRound) :
    OrchState :=
  rounds.foldl (fun s r => orchStep maxIter recipient r s) orchInit

/-! ## Bridging lemmas between strings and character lists -/

theorem toList_append (a b : String) : (a ++ b).toList = a.toList ++ b.toList :=
  String.data_append a b

theorem mk_toList (s : String) : String.mk s.toList = s := rfl

theorem replChars_structure (path : List Char) :
    replChars path = saveTok ++ (replInner path ++ [')']) := rfl

theorem toList_saveReplStr (p : String) :
    (saveReplStr p).toList = replChars p.toList := by
  have h1 : (".save(r\"" : String).toList =
      ['.', 's', 'a', 'v', 'e', '(', 'r', '"'] := rfl
  have h2 : ("\")" : String).toList = ['"', ')'] := rfl
  show ((".save(r\"" ++ p) ++ "\")").toList = replChars p.toList
  rw [toList_append, toList_append, h1, h2]
  simp [replChars, replInner, saveTok]

theorem pyIn_save_eq (code : String) :
    pyIn ".save(" code = hasTok saveTok code.toList := rfl

theorem fixSaveCode_pos {path code : String} (h : pyIn ".save(" code = true) :
    fixSaveCode path code =
      String.mk (subSave (replChars path.toList) code.toList) := by
  rw [fixSaveCode, if_pos h]

theorem fixSaveCode_neg {path code : String} (h : pyIn ".save(" code = false) :
    fixSaveCode path code = code ++ appendMid ++ saveReplStr path := by
  rw [fixSaveCode, if_neg (by rw [h]; exact Bool.false_ne_true)]

theorem startsTok_save_replChars (p : List Char) :
    startsTok saveTok (replChars p) = true := by
  have h : replChars p = replChars p ++ [] := (List.append_nil _).symm
  rw [h]
  exact startsTok_save_repl_append (replChars_structure p) []

/-- In the append branch, rescanning the appended text finds exactly the
one inserted save call and changes nothing. -/
theorem fixSave_append_shape {path code : String}
    (hp : (')' : Char) ∉ path.toList)
    (h : pyIn ".save(" code = false) :
    subSave (replChars path.toList)
        ((code ++ appendMid ++ saveReplStr path).toList) =
      (code ++ appendMid ++ saveReplStr path).toList ∧
    saveTargets ((code ++ appendMid ++ saveReplStr path).toList) =
      [replInner path.toList] := by
  have hr := replChars_structure path.toList
  have hi := notMem_replInner hp
  have htl : (code ++ appendMid ++ saveReplStr path).toList =
      code.toList ++ (appendMid.toList ++ replChars path.toList) := by
    rw [toList_append, toList_append, toList_saveReplStr, List.append_assoc]
  have hY1 : ∀ n : Nat, 1 ≤ n → n < 6 →
      (appendMid.toList ++ replChars path.toList)[0]? ≠ saveTok[n]? := by
    intro n h1 h6
    have hmid : appendMid.toList =
        '\n' :: ("\n# Save the presentation\nprs".toList) := rfl
    have hhead : (appendMid.toList ++ replChars path.toList)[0]? =
        some '\n' := by
      rw [hmid]
      rfl
    rw [hhead]
    interval_cases n <;> decide
  have hA1 : hasTok saveTok code.toList = false := by
    rw [← pyIn_save_eq]
    exact h
  have first := subSave_append_no_cross (replChars path.toList) hY1
    code.toList hA1
  have hY2 : ∀ n : Nat, 1 ≤ n → n < 6 →
      (replChars path.toList)[0]? ≠ saveTok[n]? := by
    intro n h1 h6
    have hhead : (replChars path.toList)[0]? = some '.' := rfl
    rw [hhead]
    interval_cases n <;> decide
  have hA2 : hasTok saveTok appendMid.toList = false := by decide
  have second := subSave_append_no_cross (replChars path.toList) hY2
    appendMid.toList hA2
  have hrepl := subSave_repl_append hr hi []
  have hrepl_sub : subSave (replChars path.toList) (replChars path.toList) =
      replChars path.toList := by
    have h3 := hrepl.1
    rw [List.append_nil, subSave_nil, List.append_nil] at h3
    exact h3
  have hrepl_tar : saveTargets (replChars path.toList) =
      [replInner path.toList] := by
    have h3 := hrepl.2
    rw [List.append_nil, saveTargets_nil] at h3
    exact h3
  constructor
  · rw [htl, first.1, second.1, hrepl_sub]
  · rw [htl, first.2, second.2, hrepl_tar]

/-! ## Orchestrator invariant -/

/-- The counter stays within the bound, strictly below it before a
generation attempt. -/
def orchInv (m : Nat) (s : OrchState) : Prop :=
  s.iteration_count ≤ m ∧
    ((s.stage = Stage.planning ∨ s.stage = Stage.generating) →
      s.iteration_count < m)

theorem orchStep_inv {m : Nat} {recip : Bool} {r : StageRound} {s : OrchState}
    (h : orchInv m s) : orchInv m (orchStep m recip r s) := by
  obtain ⟨st, n⟩ := s
  obtain ⟨h1, h2⟩ := h
  have h1' : n ≤ m := h1
  cases st with
  | planning =>
    have hn : n < m := h2 (Or.inl rfl)
    simp only [orchStep]
    exact ⟨h1', fun _ => hn⟩
  | generating =>
    have hn : n < m := h2 (Or.inr rfl)
    simp only [orchStep]
    refine ⟨hn, fun hc => ?_⟩
    simp at hc
  | validating =>
    simp only [orchStep]
    split_ifs with hv hn
    · exact ⟨h1', fun hc => by simp at hc⟩
    · exact ⟨h1', fun hc => by simp at hc⟩
    · exact ⟨h1', fun _ => show n < m by omega⟩
  | executing =>
    simp only [orchStep]
    split_ifs with he hrec hn
    · exact ⟨h1', fun hc => by simp at hc⟩
    · exact ⟨h1', fun hc => by simp at hc⟩
    · exact ⟨h1', fun hc => by simp at hc⟩
    · exact ⟨h1', fun _ => show n < m by omega⟩
  | delivering =>
    simp only [orchStep]
    exact ⟨h1', fun hc => by simp at hc⟩
  | done =>
    simp only [orchStep]
    exact ⟨h1', fun hc => by simp at hc⟩
  | failed =>
    simp only [orchStep]
    exact ⟨h1', fun hc => by simp at hc⟩

theorem orchRun_inv (m : Nat) (recip : Bool) (rounds : List StageRound)
    (hm : 1 ≤ m) : orchInv m (orchRun m recip rounds) := by
  have key : ∀ (rs : List StageRound) (s : OrchState), orchInv m s →
      orchInv m (rs.foldl (fun s r => orchStep m recip r s) s) := by
    intro rs
    induction rs with
    | nil => intro s hs; exact hs
    | cons r rs ih =>
      intro s hs
      exact ih _ (orchStep_inv hs)
  exact key rounds orchInit ⟨Nat.zero_le m, fun _ => hm⟩

/-! ## Claim theorems -/

/-- C1, counterexample: the workspace holds no `output` subdirectory and
the relocated save destination is not under `output/`: the artifact
directory of `create_project_folder` and of the executor's rewrite is
named `presentations`. -/
theorem workspace_output_subdir_counterexample :
    ("output" ∉ (create_project_folder "/cwd" "Solar" "20250101_000000"
      "ab12cd34").subdirs) ∧
    outputPathStr "/cwd/proj" "presentation.pptx" ≠
      "/cwd/proj/output/presentation.pptx" ∧
    outputPathStr "/cwd/proj" "presentation.pptx" =
      "/cwd/proj/presentations/presentation.pptx" := by
  refine ⟨by decide, by decide, by decide⟩

/-- C1 (amended): workspace creation builds exactly the fixed
subdirectories code, presentations, assets, logs, and for every source
text and artifact filename the executor relocates every save destination
to `workspace/presentations/<artifactFilename>` regardless of what the
candidate source specified (the appended call included). -/
theorem workspace_layout_and_relocation
    (cwd topic timestamp uid pf fn code : String)
    (hp : (')' : Char) ∉ (outputPathStr pf fn).toList) :
    (create_project_folder cwd topic timestamp uid).subdirs =
      ["code", "presentations", "assets", "logs"] ∧
    outputPathStr pf fn = slashNorm (pf ++ "/presentations/" ++ ensurePptx fn) ∧
    (∀ t ∈ saveTargets ((fixSaveCode (outputPathStr pf fn) code).toList),
      t = replInner (outputPathStr pf fn).toList) := by
  refine ⟨rfl, rfl, ?_⟩
  intro t ht
  by_cases h : pyIn ".save(" code = true
  · rw [fixSaveCode_pos h] at ht
    exact saveTargets_subSave (replChars_structure _) (notMem_replInner hp)
      code.toList t ht
  · have h' : pyIn ".save(" code = false := by
      cases hb : pyIn ".save(" code
      · rfl
      · exact absurd hb h
    rw [fixSaveCode_neg h'] at ht
    rw [(fixSave_append_shape hp h').2] at ht
    simpa using ht

/-- C1 witness: the hypothesis holds at a concrete workspace path, and the
first conjunct evaluates there. -/
theorem workspace_layout_and_relocation_witness :
    ((')' : Char) ∉ (outputPathStr "/cwd/proj" "deck").toList) ∧
    (create_project_folder "/cwd" "Solar Energy" "20250101_000000"
      "ab12cd34").subdirs = ["code", "presentations", "assets", "logs"] :=
  ⟨by decide,
    (workspace_layout_and_relocation "/cwd" "Solar Energy" "20250101_000000"
      "ab12cd34" "/cwd/proj" "deck" "x = 1" (by decide)).1⟩

/-- C2: whenever the (rewritten) source holds the design-system import and
the module file exists at its source location, `execute_ppt_code` returns
an error record: line 361 calls `.exists()` on the plain string
`template_source`, raising `AttributeError`, so the staging step always
fails instead of never failing. -/
theorem template_staging_always_errors (path code : String)
    (h : pyIn "from ppt_templates import" (fixSaveCode path code) = true) :
    execPrepare true path code =
      Except.error
        "Error executing PowerPoint code: 'str' object has no attribute 'exists'" := by
  simp [execPrepare, h]

/-- C2 witness: a concrete template-importing source reaches the staging
error although the module file exists. -/
theorem template_staging_always_errors_witness :
    (pyIn "from ppt_templates import"
      (fixSaveCode "out/presentation.pptx"
        "from ppt_templates import create_template") = true) ∧
    execPrepare true "out/presentation.pptx"
        "from ppt_templates import create_template" =
      Except.error
        "Error executing PowerPoint code: 'str' object has no attribute 'exists'" :=
  ⟨by decide,
    template_staging_always_errors "out/presentation.pptx"
      "from ppt_templates import create_template" (by decide)⟩

/-- C3: `iteration_count` never exceeds `max_iterations` on any run, and
with `max_iterations = 3` and validation failing in every round the
orchestrator is in FAILED with exactly 3 recorded generation attempts
after 7 steps, and not in FAILED at any earlier step. -/
theorem orch_iteration_bound_and_exhaustion
    (m : Nat) (recip : Bool) (rounds : List StageRound) (hm : 1 ≤ m) :
    (orchRun m recip rounds).iteration_count ≤ m ∧
    (orchRun 3 false (List.replicate 7 ⟨false, false⟩) =
      ⟨Stage.failed, 3⟩ ∧
      ∀ k, k < 7 →
        (orchRun 3 false (List.replicate k ⟨false, false⟩)).stage ≠
          Stage.failed) := by
  refine ⟨(orchRun_inv m recip rounds hm).1, by decide, by decide⟩

/-- C3 witness: the bound evaluates at a concrete run. -/
theorem orch_iteration_bound_and_exhaustion_witness :
    (1 ≤ 3) ∧
    (orchRun 3 true [⟨true, true⟩, ⟨true, true⟩]).iteration_count ≤ 3 :=
  ⟨by decide,
    (orch_iteration_bound_and_exhaustion 3 true [⟨true, true⟩, ⟨true, true⟩]
      (by decide)).1⟩

/-- C4: a syntactically invalid source yields exactly the one blocking
syntax finding, no warnings, and none of the later checks run (their
result keys are absent). -/
theorem invalid_source_single_finding (src : PySource)
    (h : src.parse_ok = false) :
    (validate_ppt_code src).errors =
      ["Syntax error at line " ++ toString src.errLine ++ ": " ++ src.errMsg] ∧
    (validate_ppt_code src).errors.length = 1 ∧
    (validate_ppt_code src).warnings = [] ∧
    (validate_ppt_code src).imports_template = none ∧
    (validate_ppt_code src).uses_template_system = none ∧
    (validate_ppt_code src).template_theme_selected = none ∧
    (validate_ppt_code src).uses_raw_pptx = none := by
  simp [validate_ppt_code, h]

/-- C4 witness: the property evaluates at a concrete invalid source. -/
theorem invalid_source_single_finding_witness :
    ((⟨"x = (", false, 1, "invalid syntax"⟩ : PySource).parse_ok = false) ∧
    (validate_ppt_code ⟨"x = (", false, 1, "invalid syntax"⟩).errors =
      ["Syntax error at line 1: invalid syntax"] :=
  ⟨rfl, (invalid_source_single_finding ⟨"x = (", false, 1, "invalid syntax"⟩
    rfl).1⟩

/-- C5: the execution classification is exhaustive over the four outcome
cases and assigns: timeout yields an error with the timeout message;
exit 0 with the artifact yields success with the artifact path; exit 0
without it yields warning with empty path; non-zero exit yields error
carrying the captured stderr (with stdout as fallback when stderr is
empty). -/
theorem execution_classification_cases (p : String) (o : RunOutcome) :
    (o.timedOut = true ∨
      (o.timedOut = false ∧ o.returncode = 0 ∧ o.artifactExists = true) ∨
      (o.timedOut = false ∧ o.returncode = 0 ∧ o.artifactExists = false) ∨
      (o.timedOut = false ∧ o.returncode ≠ 0)) ∧
    (o.timedOut = true →
      (classifyExecution p o).status = "error" ∧
      (classifyExecution p o).message =
        "PowerPoint code execution timed out (>2 minutes)") ∧
    (o.timedOut = false → o.returncode = 0 → o.artifactExists = true →
      (classifyExecution p o).status = "success" ∧
      (classifyExecution p o).ppt_path = p) ∧
    (o.timedOut = false → o.returncode = 0 → o.artifactExists = false →
      (classifyExecution p o).status = "warning" ∧
      (classifyExecution p o).ppt_path = "") ∧
    (o.timedOut = false → o.returncode ≠ 0 →
      (classifyExecution p o).status = "error" ∧
      (classifyExecution p o).error =
        some (if o.stderr = "" then o.stdout else o.stderr) ∧
      (o.stderr ≠ "" → (classifyExecution p o).error = some o.stderr)) := by
  refine ⟨?_, ?_, ?_, ?_, ?_⟩
  · cases ht : o.timedOut
    · by_cases hrc : o.returncode = 0
      · cases ha : o.artifactExists
        · exact Or.inr (Or.inr (Or.inl ⟨rfl, hrc, rfl⟩))
        · exact Or.inr (Or.inl ⟨rfl, hrc, rfl⟩)
      · exact Or.inr (Or.inr (Or.inr ⟨rfl, hrc⟩))
    · exact Or.inl rfl
  · intro h1
    simp [classifyExecution, h1]
  · intro h1 h2 h3
    simp [classifyExecution, h1, h2, h3]
  · intro h1 h2 h3
    simp [classifyExecution, h1, h2, h3]
  · intro h1 h2
    have hcl : classifyExecution p o =
        { status := "error", ppt_path := "", output := some o.stdout,
          error := some (if o.stderr = "" then o.stdout else o.stderr),
          message := "PowerPoint code execution failed: " ++
            (if o.stderr = "" then o.stdout else o.stderr) } := by
      simp [classifyExecution, h1, h2]
    rw [hcl]
    refine ⟨rfl, rfl, ?_⟩
    intro hse
    simp [if_neg hse]

/-- C5 witness: the timeout case evaluates at a concrete outcome. -/
theorem execution_classification_cases_witness :
    (classifyExecution "out.pptx" ⟨true, 0, "", "", false⟩).status = "error" ∧
    (classifyExecution "out.pptx" ⟨true, 0, "", "", false⟩).message =
      "PowerPoint code execution timed out (>2 minutes)" :=
  (execution_classification_cases "out.pptx" ⟨true, 0, "", "", false⟩).2.1 rfl

/-- C6: the overall success flag reads only the executor output: two runs
identical except for the delivery output share the success flag, delivery
status sits in its own field, and no delivery output value changes
success. -/
theorem success_independent_of_delivery (ex em₁ em₂ : String) :
    (analyzeResult ex em₁).success = (analyzeResult ex em₂).success ∧
    (analyzeResult ex em₁).success = isSuccessful ex ∧
    (analyzeResult ex em₁).email_sent = emailSent em₁ :=
  ⟨rfl, rfl, rfl⟩

/-- C7: the validator is a deterministic pure function of its input:
identical inputs yield identical reports (it is a total Lean function,
so in particular it performs no I/O or execution). -/
theorem validator_deterministic (s₁ s₂ : PySource) (h : s₁ = s₂) :
    validate_ppt_code s₁ = validate_ppt_code s₂ := by
  rw [h]

/-- C7 witness: determinism evaluates at a concrete source. -/
theorem validator_deterministic_witness :
    validate_ppt_code ⟨"x = 1", true, 0, ""⟩ =
      validate_ppt_code ⟨"x = 1", true, 0, ""⟩ :=
  validator_deterministic ⟨"x = 1", true, 0, ""⟩ ⟨"x = 1", true, 0, ""⟩ rfl

/-- C8: the save-destination rewrite is idempotent (for output paths
holding no close paren, as every workspace path built from a benign topic
is), and on sources with no save call it appends exactly one save call
targeting the output path. -/
theorem save_rewrite_idempotent_and_append (path code : String)
    (hp : (')' : Char) ∉ path.toList) :
    fixSaveCode path (fixSaveCode path code) = fixSaveCode path code ∧
    (pyIn ".save(" code = false →
      fixSaveCode path code = code ++ appendMid ++ saveReplStr path) := by
  have hr := replChars_structure path.toList
  have hi := notMem_replInner hp
  constructor
  · by_cases h : pyIn ".save(" code = true
    · rw [fixSaveCode_pos h]
      have h2 : pyIn ".save("
          (String.mk (subSave (replChars path.toList) code.toList)) = true := by
        rw [pyIn_save_eq]
        exact hasTok_subSave hr code.toList h
      rw [fixSaveCode_pos h2]
      show String.mk (subSave _ (subSave _ code.toList)) = _
      rw [subSave_idem hr hi]
    · have h' : pyIn ".save(" code = false := by
        cases hb : pyIn ".save(" code
        · rfl
        · exact absurd hb h
      rw [fixSaveCode_neg h']
      have happ := fixSave_append_shape hp h'
      have h2 : pyIn ".save(" (code ++ appendMid ++ saveReplStr path) = true := by
        rw [pyIn_save_eq]
        have htl : (code ++ appendMid ++ saveReplStr path).toList =
            (code.toList ++ appendMid.toList) ++ replChars path.toList := by
          rw [toList_append, toList_append, toList_saveReplStr]
        rw [htl]
        exact hasTok_append_of_startsTok (startsTok_save_replChars _) _
      rw [fixSaveCode_pos h2]
      rw [happ.1]
      exact mk_toList _
  · intro h
    exact fixSaveCode_neg h

/-- C8 witness: idempotence evaluates at a concrete path and source. -/
theorem save_rewrite_idempotent_and_append_witness :
    ((')' : Char) ∉ ("out/presentation.pptx" : String).toList) ∧
    fixSaveCode "out/presentation.pptx"
        (fixSaveCode "out/presentation.pptx" "x = 1") =
      fixSaveCode "out/presentation.pptx" "x = 1" :=
  ⟨by decide,
    (save_rewrite_idempotent_and_append "out/presentation.pptx" "x = 1"
      (by decide)).1⟩

/-- C9, counterexample: a syntactically invalid source missing the
design-system import gets only the syntax finding: no finding cites the
import, refuting the unconditional claim. -/
theorem missing_import_invalid_counterexample :
    (pyIn "from ppt_templates import create_template" "x = (" = false) ∧
    importErrMsg ∉
      (validate_ppt_code ⟨"x = (", false, 1, "invalid syntax"⟩).errors ∧
    (validate_ppt_code ⟨"x = (", false, 1, "invalid syntax"⟩).errors.all
      (fun e => !(pyIn "ppt_templates" e)) = true := by
  refine ⟨by decide, by decide, by decide⟩

/-- C9 (amended): for every syntactically valid source missing the
design-system import, the report fails overall and holds the blocking
finding citing that import, exactly once; a missing factory call likewise
contributes exactly one blocking finding. -/
theorem missing_import_blocking_finding (src : PySource)
    (hok : src.parse_ok = true)
    (himp : pyIn "from ppt_templates import create_template" src.text = false) :
    importErrMsg ∈ (validate_ppt_code src).errors ∧
    overallPass (validate_ppt_code src) = false ∧
    (validate_ppt_code src).errors.count importErrMsg = 1 ∧
    (pyIn "create_template(" src.text = false →
      useErrMsg ∈ (validate_ppt_code src).errors ∧
      (validate_ppt_code src).errors.count useErrMsg = 1) := by
  cases hu : pyIn "create_template(" src.text with
  | false =>
    cases hb : (pyIn "Presentation()" src.text ||
        pyIn "pptx.Presentation()" src.text ||
        pyIn "from pptx import Presentation" src.text ||
        pyIn "import pptx" src.text) with
    | false =>
      have herr : (validate_ppt_code src).errors = [importErrMsg, useErrMsg] := by
        simp [validate_ppt_code, hok, himp, hu, hb]
      refine ⟨by rw [herr]; decide, by simp [overallPass, herr],
        by rw [herr]; decide, fun _ => ⟨by rw [herr]; decide,
          by rw [herr]; decide⟩⟩
    | true =>
      have herr : (validate_ppt_code src).errors =
          [importErrMsg, useErrMsg, rawErrMsg] := by
        simp [validate_ppt_code, hok, himp, hu, hb]
      refine ⟨by rw [herr]; decide, by simp [overallPass, herr],
        by rw [herr]; decide, fun _ => ⟨by rw [herr]; decide,
          by rw [herr]; decide⟩⟩
  | true =>
    cases hb : (pyIn "Presentation()" src.text ||
        pyIn "pptx.Presentation()" src.text ||
        pyIn "from pptx import Presentation" src.text ||
        pyIn "import pptx" src.text) with
    | false =>
      have herr : (validate_ppt_code src).errors = [importErrMsg] := by
        simp [validate_ppt_code, hok, himp, hu, hb]
      refine ⟨by rw [herr]; decide, by simp [overallPass, herr],
        by rw [herr]; decide, fun hctr => absurd hctr (by decide)⟩
    | true =>
      have herr : (validate_ppt_code src).errors = [importErrMsg, rawErrMsg] := by
        simp [validate_ppt_code, hok, himp, hu, hb]
      refine ⟨by rw [herr]; decide, by simp [overallPass, herr],
        by rw [herr]; decide, fun hctr => absurd hctr (by decide)⟩

/-- C9 witness: the amended property evaluates at a concrete valid source
missing both the import and the factory call. -/
theorem missing_import_blocking_finding_witness :
    ((⟨"x = 1", true, 0, ""⟩ : PySource).parse_ok = true) ∧
    (pyIn "from ppt_templates import create_template" "x = 1" = false) ∧
    importErrMsg ∈ (validate_ppt_code ⟨"x = 1", true, 0, ""⟩).errors :=
  ⟨rfl, by decide,
    (missing_import_blocking_finding ⟨"x = 1", true, 0, ""⟩ rfl (by decide)).1⟩

/-- C10: `create_template` is total over theme strings: any input outside
the enumeration falls back to the business template, never an error. -/
theorem create_template_total_default (s : String)
    (h : s ∉ (["business", "tech", "creative", "corporate"] : List String)) :
    create_template s = TemplateClass.business := by
  have h1 : (s == "business") = false := by
    have : s ≠ "business" := fun he => h (by rw [he]; decide)
    simp [this]
  have h2 : (s == "tech") = false := by
    have : s ≠ "tech" := fun he => h (by rw [he]; decide)
    simp [this]
  have h3 : (s == "creative") = false := by
    have : s ≠ "creative" := fun he => h (by rw [he]; decide)
    simp [this]
  have h4 : (s == "corporate") = false := by
    have : s ≠ "corporate" := fun he => h (by rw [he]; decide)
    simp [this]
  simp [create_template, templatesDict, List.lookup, h1, h2, h3, h4]

/-- C10 witness: a misspelled theme silently yields the business
template. -/
theorem create_template_total_default_witness :
    (("Business" : String) ∉
      (["business", "tech", "creative", "corporate"] : List String)) ∧
    create_template "Business" = TemplateClass.business :=
  ⟨by decide, create_template_total_default "Business" (by decide)⟩

end PPT
